import Mathlib

/-
  Verification development for the parallel-u repository.

  The embedded code is the SSE ingestion core of
  `src/parallel_u/clients/mino_client.py` (MinoClient.run_automation,
  MinoClient.run_multiple) and the in-memory session store of
  `src/parallel_u/services/session_store.py`.

  Modelling conventions:
  - Python `json.loads` values are modelled by the mutual inductive `Json`
    below.  Numeric literals are carried verbatim as their source lexeme
    (so `str()`/`dumps` of a float lexeme is the lexeme itself; the claims
    never depend on float normalisation).  A lone UTF-16 surrogate escape,
    which Python would keep as a surrogate code unit, is mapped to NUL
    because Lean characters are unicode scalar values.
  - Python exceptions that escape the function (notably the AttributeError
    raised when `json.loads` returns a non-dict and the code calls
    `event.get`, or when a COMPLETE event carries a non-string `status`
    and the code calls `status.lower()`) are modelled by `Except.error`.
  - The transport layer (httpx) is modelled by `TransportOutcome`: either a
    fault before any response, or a response with a status code, a body
    (already rendered as the Python f-string would render the bytes), the
    list of SSE lines, and an optional fault after the lines.
-/

mutual
inductive Json : Type where
  | null : Json
  | bool : Bool → Json
  | num : String → Json
  | str : String → Json
  | arr : JsonList → Json
  | obj : JsonKVs → Json

inductive JsonList : Type where
  | nil : JsonList
  | cons : Json → JsonList → JsonList

inductive JsonKVs : Type where
  | nil : JsonKVs
  | cons : String → Json → JsonKVs → JsonKVs
end

/-- Python `d.get(k)`: first binding of `k` in the (duplicate-free) dict. -/
def dget : JsonKVs → String → Option Json
  | JsonKVs.nil, _ => none
  | JsonKVs.cons k v rest, key => if k = key then some v else dget rest key

/-- Python `d.get(k, default)`. -/
def dgetD (kvs : JsonKVs) (key : String) (d : Json) : Json :=
  (dget kvs key).getD d

/-- Dict insertion as Python does it while decoding JSON objects: an existing
key keeps its position and gets the new value, a new key is appended. -/
def insertKey : JsonKVs → String → Json → JsonKVs
  | JsonKVs.nil, k, v => JsonKVs.cons k v JsonKVs.nil
  | JsonKVs.cons k0 v0 rest, k, v =>
      if k0 = k then JsonKVs.cons k0 v rest
      else JsonKVs.cons k0 v0 (insertKey rest k v)

/-- Python `x == s` for a decoded value `x` and a str literal `s`:
true only when `x` is itself a str equal to `s`. -/
def jEqStr : Json → String → Bool
  | Json.str s, t => s == t
  | _, _ => false

/-- One lowercase hex digit. -/
def hexDigit (n : Nat) : Char :=
  if n < 10 then Char.ofNat (48 + n) else Char.ofNat (97 + (n - 10))

/-- Four lowercase hex digits, as in a JSON \uXXXX escape. -/
def hex4 (n : Nat) : String :=
  String.mk [hexDigit (n / 4096 % 16), hexDigit (n / 256 % 16),
             hexDigit (n / 16 % 16), hexDigit (n % 16)]

/-- Escape one character the way `json.dumps` (ensure_ascii=True) does. -/
def escChar (c : Char) : String :=
  if c = '"' then "\\\""
  else if c = '\\' then "\\\\"
  else if c = '\n' then "\\n"
  else if c = '\t' then "\\t"
  else if c = '\r' then "\\r"
  else if c = Char.ofNat 8 then "\\b"
  else if c = Char.ofNat 12 then "\\f"
  else if c.toNat < 32 || c.toNat > 126 then
    if c.toNat ≤ 65535 then "\\u" ++ hex4 c.toNat
    else
      "\\u" ++ hex4 (55296 + (c.toNat - 65536) / 1024) ++
      "\\u" ++ hex4 (56320 + (c.toNat - 65536) % 1024)
  else String.singleton c

/-- A JSON string literal as `json.dumps` renders it. -/
def jsonEscape (s : String) : String :=
  "\"" ++ String.join (s.data.map escChar) ++ "\""

/-- `n` spaces. -/
def pad (n : Nat) : String := String.mk (List.replicate n ' ')

mutual
/-- `json.dumps(v, indent=2)` at the given current indentation level. -/
def dumpsVal : Nat → Json → String
  | _, Json.null => "null"
  | _, Json.bool true => "true"
  | _, Json.bool false => "false"
  | _, Json.num raw => raw
  | _, Json.str s => jsonEscape s
  | _, Json.arr JsonList.nil => "[]"
  | ind, Json.arr (JsonList.cons x xs) =>
      "[\n" ++ pad (ind + 2) ++ dumpsVal (ind + 2) x ++ dumpsArr (ind + 2) xs ++
      "\n" ++ pad ind ++ "]"
  | _, Json.obj JsonKVs.nil => "\x7b\x7d"
  | ind, Json.obj (JsonKVs.cons k v kvs) =>
      "\x7b\n" ++ pad (ind + 2) ++ jsonEscape k ++ ": " ++ dumpsVal (ind + 2) v ++
      dumpsObj (ind + 2) kvs ++ "\n" ++ pad ind ++ "\x7d"

def dumpsArr : Nat → JsonList → String
  | _, JsonList.nil => ""
  | ind, JsonList.cons x xs => ",\n" ++ pad ind ++ dumpsVal ind x ++ dumpsArr ind xs

def dumpsObj : Nat → JsonKVs → String
  | _, JsonKVs.nil => ""
  | ind, JsonKVs.cons k v kvs =>
      ",\n" ++ pad ind ++ jsonEscape k ++ ": " ++ dumpsVal ind v ++ dumpsObj ind kvs
end

/-- `json.dumps(v, indent=2)`. -/
def jsonDumps2 (j : Json) : String := dumpsVal 0 j

/-- Escaping inside a Python single-quoted repr (backslash and quote only;
control-character escaping of repr is not needed by any claim). -/
def reprEsc (s : String) : String :=
  String.join (s.data.map (fun c =>
    if c = '\\' then "\\\\" else if c = '\x27' then "\\\x27" else String.singleton c))

mutual
/-- Python `repr` of a value decoded from JSON. -/
def pyRepr : Json → String
  | Json.null => "None"
  | Json.bool true => "True"
  | Json.bool false => "False"
  | Json.num raw => raw
  | Json.str s => "\x27" ++ reprEsc s ++ "\x27"
  | Json.arr xs => "[" ++ pyReprArr xs ++ "]"
  | Json.obj kvs => "\x7b" ++ pyReprObj kvs ++ "\x7d"

def pyReprArr : JsonList → String
  | JsonList.nil => ""
  | JsonList.cons x JsonList.nil => pyRepr x
  | JsonList.cons x xs => pyRepr x ++ ", " ++ pyReprArr xs

def pyReprObj : JsonKVs → String
  | JsonKVs.nil => ""
  | JsonKVs.cons k v JsonKVs.nil => "\x27" ++ reprEsc k ++ "\x27: " ++ pyRepr v
  | JsonKVs.cons k v kvs =>
      "\x27" ++ reprEsc k ++ "\x27: " ++ pyRepr v ++ ", " ++ pyReprObj kvs
end

/-- Python `str` of a value decoded from JSON. -/
def pyStr : Json → String
  | Json.null => "None"
  | Json.bool true => "True"
  | Json.bool false => "False"
  | Json.num raw => raw
  | Json.str s => s
  | Json.arr xs => pyRepr (Json.arr xs)
  | Json.obj kvs => pyRepr (Json.obj kvs)

/-
  A recursive-descent model of Python `json.loads`, fuel-recursive on the
  value level (fuel `input length + 1` always suffices, since every nested
  parse step first consumes at least one character).
-/

/-- JSON whitespace, as skipped by the Python decoder. -/
def isJsonWs (c : Char) : Bool :=
  c = ' ' || c = '\t' || c = '\n' || c = '\r'

def skipWs : List Char → List Char
  | [] => []
  | c :: cs => if isJsonWs c then skipWs cs else c :: cs

def hexVal (c : Char) : Option Nat :=
  if 48 ≤ c.toNat && c.toNat ≤ 57 then some (c.toNat - 48)
  else if 97 ≤ c.toNat && c.toNat ≤ 102 then some (c.toNat - 97 + 10)
  else if 65 ≤ c.toNat && c.toNat ≤ 70 then some (c.toNat - 65 + 10)
  else none

/-- Decode a code point; a lone surrogate (kept verbatim by Python) falls
back to NUL since Lean chars are unicode scalar values. -/
def chFromCode (n : Nat) : Char := Char.ofNat n

/-- Body of a JSON string literal, after the opening quote. Returns the
decoded string and the input after the closing quote. Strict mode: raw
control characters are rejected. -/
def parseStrBody : Nat → List Char → String → Option (String × List Char)
  | 0, _, _ => none
  | _ + 1, [], _ => none
  | fuel + 1, c :: cs, acc =>
    if c = '"' then some (acc, cs)
    else if c = '\\' then
      match cs with
      | [] => none
      | e :: cs1 =>
        if e = '"' then parseStrBody fuel cs1 (acc.push '"')
        else if e = '\\' then parseStrBody fuel cs1 (acc.push '\\')
        else if e = '/' then parseStrBody fuel cs1 (acc.push '/')
        else if e = 'b' then parseStrBody fuel cs1 (acc.push (Char.ofNat 8))
        else if e = 'f' then parseStrBody fuel cs1 (acc.push (Char.ofNat 12))
        else if e = 'n' then parseStrBody fuel cs1 (acc.push '\n')
        else if e = 'r' then parseStrBody fuel cs1 (acc.push '\r')
        else if e = 't' then parseStrBody fuel cs1 (acc.push '\t')
        else if e = 'u' then
          match cs1 with
          | a :: b :: c2 :: d :: rest =>
            match hexVal a, hexVal b, hexVal c2, hexVal d with
            | some ha, some hb, some hc, some hd =>
              let n := ((ha * 16 + hb) * 16 + hc) * 16 + hd
              if 55296 ≤ n && n ≤ 56319 then
                match rest with
                | bs :: u2 :: a2 :: b2 :: c3 :: d2 :: rest2 =>
                  if bs = '\\' && u2 = 'u' then
                    match hexVal a2, hexVal b2, hexVal c3, hexVal d2 with
                    | some e1, some e2, some e3, some e4 =>
                      let m := ((e1 * 16 + e2) * 16 + e3) * 16 + e4
                      if 56320 ≤ m && m ≤ 57343 then
                        parseStrBody fuel rest2
                          (acc.push (chFromCode
                            (65536 + (n - 55296) * 1024 + (m - 56320))))
                      else parseStrBody fuel rest (acc.push (chFromCode n))
                    | _, _, _, _ => parseStrBody fuel rest (acc.push (chFromCode n))
                  else parseStrBody fuel rest (acc.push (chFromCode n))
                | _ => parseStrBody fuel rest (acc.push (chFromCode n))
              else parseStrBody fuel rest (acc.push (chFromCode n))
            | _, _, _, _ => none
          | _ => none
        else none
    else if c.toNat < 32 then none
    else parseStrBody fuel cs (acc.push c)

def takeDigits : List Char → List Char × List Char
  | [] => ([], [])
  | c :: cs =>
    if c.isDigit then
      let p := takeDigits cs
      (c :: p.1, p.2)
    else ([], c :: cs)

def parseExpDigitsCore (lex : List Char) (cs : List Char) :
    Option (List Char × List Char) :=
  match takeDigits cs with
  | ([], _) => none
  | (ds, r) => some (lex ++ ds, r)

def parseExpDigits (lex : List Char) (cs : List Char) :
    Option (List Char × List Char) :=
  match cs with
  | '+' :: rest => parseExpDigitsCore (lex ++ ['+']) rest
  | '-' :: rest => parseExpDigitsCore (lex ++ ['-']) rest
  | _ => parseExpDigitsCore lex cs

def parseExpPart (lex : List Char) (cs : List Char) :
    Option (List Char × List Char) :=
  match cs with
  | 'e' :: rest => parseExpDigits (lex ++ ['e']) rest
  | 'E' :: rest => parseExpDigits (lex ++ ['E']) rest
  | _ => some (lex, cs)

/-- The number grammar of JSON starting at the first digit of the integer
part (a possible leading minus was consumed by the caller): `0` or a
nonzero-led digit run, optional fraction, optional exponent. -/
def parseNumTail (cs : List Char) : Option (List Char × List Char) :=
  match cs with
  | [] => none
  | c :: cs1 =>
    if c.isDigit then
      let p := if c = '0' then ([c], cs1) else takeDigits (c :: cs1)
      match p.2 with
      | '.' :: r2 =>
        (match takeDigits r2 with
         | ([], _) => none
         | (fds, r3) => parseExpPart (p.1 ++ '.' :: fds) r3)
      | _ => parseExpPart p.1 p.2
    else none

/-- Append one element to a JsonList. -/
def jlAppend : JsonList → Json → JsonList
  | JsonList.nil, v => JsonList.cons v JsonList.nil
  | JsonList.cons x xs, v => JsonList.cons x (jlAppend xs v)

/-- Expect the given literal characters. -/
def expectLit : List Char → List Char → Option (List Char)
  | [], cs => some cs
  | _ :: _, [] => none
  | l :: ls, c :: cs => if c = l then expectLit ls cs else none

mutual
/-- One JSON value (leading whitespace allowed), Python `json.loads`
grammar including the NaN/Infinity extensions. -/
def parseVal : Nat → List Char → Option (Json × List Char)
  | 0, _ => none
  | fuel + 1, cs =>
    match skipWs cs with
    | [] => none
    | c :: cs1 =>
      if c = '\x7b' then
        match skipWs cs1 with
        | '\x7d' :: rest => some (Json.obj JsonKVs.nil, rest)
        | rest => parseObjLoop fuel rest JsonKVs.nil
      else if c = '[' then
        match skipWs cs1 with
        | ']' :: rest => some (Json.arr JsonList.nil, rest)
        | rest => parseArrLoop fuel rest JsonList.nil
      else if c = '"' then
        (parseStrBody (cs1.length + 1) cs1 "").map
          (fun p => (Json.str p.1, p.2))
      else if c = 't' then
        (expectLit ['r', 'u', 'e'] cs1).map (fun r => (Json.bool true, r))
      else if c = 'f' then
        (expectLit ['a', 'l', 's', 'e'] cs1).map (fun r => (Json.bool false, r))
      else if c = 'n' then
        (expectLit ['u', 'l', 'l'] cs1).map (fun r => (Json.null, r))
      else if c = 'N' then
        (expectLit ['a', 'N'] cs1).map (fun r => (Json.num "NaN", r))
      else if c = 'I' then
        (expectLit ['n', 'f', 'i', 'n', 'i', 't', 'y'] cs1).map
          (fun r => (Json.num "Infinity", r))
      else if c = '-' then
        match cs1 with
        | 'I' :: rest =>
          (expectLit ['n', 'f', 'i', 'n', 'i', 't', 'y'] rest).map
            (fun r => (Json.num "-Infinity", r))
        | _ =>
          (parseNumTail cs1).map
            (fun p => (Json.num (String.mk ('-' :: p.1)), p.2))
      else if c.isDigit then
        (parseNumTail (c :: cs1)).map
          (fun p => (Json.num (String.mk p.1), p.2))
      else none

/-- Members of an object, positioned at a key string. -/
def parseObjLoop : Nat → List Char → JsonKVs → Option (Json × List Char)
  | 0, _, _ => none
  | fuel + 1, cs, acc =>
    match skipWs cs with
    | '"' :: cs1 =>
      match parseStrBody (cs1.length + 1) cs1 "" with
      | none => none
      | some (k, cs2) =>
        match skipWs cs2 with
        | ':' :: cs3 =>
          match parseVal fuel cs3 with
          | none => none
          | some (v, cs4) =>
            let acc1 := insertKey acc k v
            match skipWs cs4 with
            | ',' :: cs5 => parseObjLoop fuel cs5 acc1
            | '\x7d' :: cs5 => some (Json.obj acc1, cs5)
            | _ => none
        | _ => none
    | _ => none

/-- Elements of an array, positioned at a value. -/
def parseArrLoop : Nat → List Char → JsonList → Option (Json × List Char)
  | 0, _, _ => none
  | fuel + 1, cs, acc =>
    match parseVal fuel cs with
    | none => none
    | some (v, cs1) =>
      match skipWs cs1 with
      | ',' :: cs2 => parseArrLoop fuel cs2 (jlAppend acc v)
      | ']' :: cs2 => some (Json.arr (jlAppend acc v), cs2)
      | _ => none
end

/-- Python `json.loads`: one value, then only whitespace may remain. -/
def jsonDecode (s : String) : Option Json :=
  match parseVal (s.length + 1) s.data with
  | none => none
  | some (v, rest) => if (skipWs rest).isEmpty then some v else none

/-- Python `str.strip()` (ASCII whitespace; the SSE lines of this protocol
contain no exotic unicode whitespace). -/
def isPyWs (c : Char) : Bool :=
  c = ' ' || c = '\t' || c = '\n' || c = '\r' ||
  c = Char.ofNat 11 || c = Char.ofNat 12

def pyStrip (s : String) : String :=
  String.mk (((s.data.dropWhile isPyWs).reverse.dropWhile isPyWs).reverse)

/-- Python `str.lower()` for the ASCII range (the provider status strings
folded by run_automation are ASCII; the full unicode case mapping is not
modelled). -/
def pyLowerChar (c : Char) : Char :=
  if 65 ≤ c.toNat ∧ c.toNat ≤ 90 then Char.ofNat (c.toNat + 32) else c

def pyLower (s : String) : String := String.mk (s.data.map pyLowerChar)

/-- Python `str.startswith`. -/
def strStartsWith (s marker : String) : Bool :=
  List.isPrefixOf marker.data s.data

/-
  MinoClient.run_automation: the RunResult accumulator and the fold over
  decoded events (src/parallel_u/clients/mino_client.py, lines 56-143).
-/

/-- The `result` dict built by run_automation.  `run_id` and `error` are
Option because the Python dict lacks those keys until assigned; `events`
records, per decoded event, its `type` value and its `timestamp` value. -/
structure RunResult where
  website : String
  content : String
  status : String
  events : List (Json × Option Json)
  run_id : Option Json := none
  error : Option String := none

/-- The initial result record of a run (mino_client.py lines 56-61). -/
def initResult (url : String) : RunResult :=
  { website := url, content := "", status := "pending", events := [] }

/-- Serialization of a successful resultJson payload: a dict is rendered
with `json.dumps(..., indent=2)`, anything else with `str(...)`
(mino_client.py lines 118-123). -/
def renderResult : Json → String
  | Json.obj kvs => jsonDumps2 (Json.obj kvs)
  | j => pyStr j

/-- One step of the event fold (mino_client.py lines 95-130): the body of
the per-line `try` block after `json.loads` succeeded with a dict.
`Except.error` models the uncaught AttributeError raised by
`status.lower()` when a COMPLETE event carries a non-string status. -/
def applyEvent (r : RunResult) (kvs : JsonKVs) : Except String RunResult :=
  let et := dgetD kvs "type" (Json.str "")
  let r1 := { r with events := r.events ++ [(et, dget kvs "timestamp")] }
  if jEqStr et "STARTED" then
    Except.ok { r1 with run_id := dget kvs "runId", status := "running" }
  else if jEqStr et "PROGRESS" then
    Except.ok r1
  else if jEqStr et "COMPLETE" then
    match dgetD kvs "status" (Json.str "") with
    | Json.str s =>
      let r2 := { r1 with status := pyLower s }
      if s = "COMPLETED" then
        Except.ok { r2 with
          content := renderResult (dgetD kvs "resultJson" (Json.obj JsonKVs.nil)) }
      else
        Except.ok { r2 with error := some ("Automation " ++ s) }
    | _ => Except.error "AttributeError"
  else if jEqStr et "HEARTBEAT" then
    Except.ok r1
  else
    Except.ok r1

/-- Folding a sequence of decoded events; an exception aborts the fold. -/
def foldEvents (r : RunResult) : List JsonKVs → Except String RunResult
  | [] => Except.ok r
  | e :: es =>
    match applyEvent r e with
    | Except.ok r1 => foldEvents r1 es
    | Except.error m => Except.error m

/-- Processing of one SSE line (mino_client.py lines 85-134): skip blank
lines and lines without the `data:` marker; strip the body; skip an empty
body; `json.loads` failure is caught and skipped; a decoded dict is folded;
a decoded non-dict raises AttributeError at `event.get` (uncaught). -/
def processLine (r : RunResult) (line : String) : Except String RunResult :=
  if line = "" then Except.ok r
  else if strStartsWith line "data:" then
    let dataStr := pyStrip (line.drop 5)
    if dataStr = "" then Except.ok r
    else
      match jsonDecode dataStr with
      | none => Except.ok r
      | some (Json.obj kvs) => applyEvent r kvs
      | some _ => Except.error "AttributeError"
  else Except.ok r

def processLines (r : RunResult) : List String → Except String RunResult
  | [] => Except.ok r
  | l :: ls =>
    match processLine r l with
    | Except.ok r1 => processLines r1 ls
    | Except.error m => Except.error m

/-- An httpx fault: timeout or a lower-level request error. -/
inductive Fault : Type where
  | timeout : Fault
  | reqError : String → Fault

/-- The transport-level outcome of one streaming request: a fault before
any response arrived, or a response with its status code, its body (as the
f-string renders the bytes read for a non-2xx response), the SSE lines
delivered, and an optional fault raised after those lines. -/
inductive TransportOutcome : Type where
  | noResponse : Fault → TransportOutcome
  | response : Nat → String → List String → Option Fault → TransportOutcome

/-- The two `except` handlers of run_automation (lines 136-141). -/
def applyFault (r : RunResult) : Fault → RunResult
  | Fault.timeout =>
    { r with status := "error", error := some "Request timed out after 300 seconds" }
  | Fault.reqError d =>
    { r with status := "error", error := some ("Request failed: " ++ d) }

/-- MinoClient.run_automation (mino_client.py lines 20-143) for a given
transport outcome.  `Except.error` models an uncaught exception escaping
the coroutine. -/
def run_automation (url _goal : String) (t : TransportOutcome) :
    Except String RunResult :=
  let r := initResult url
  match t with
  | TransportOutcome.noResponse f => Except.ok (applyFault r f)
  | TransportOutcome.response code body lines ending =>
    if code = 401 then
      Except.ok { r with status := "error",
                         error := some "Unauthorized: Invalid or missing API key" }
    else if code ≠ 200 then
      Except.ok { r with status := "error",
                         error := some ("HTTP " ++ toString code ++ ": " ++ body) }
    else
      match processLines r lines with
      | Except.ok r1 =>
        Except.ok (match ending with
                   | none => r1
                   | some f => applyFault r1 f)
      | Except.error m => Except.error m

/-- One browsing task handed to run_multiple: a dict with `website` and
`instructions` keys (schemas.BrowsingTask). -/
structure BrowsingTask where
  website : String
  instructions : String

/-- MinoClient.run_multiple (mino_client.py lines 145-162): a sequential
loop over the tasks, each paired with the transport outcome its request
meets; an uncaught exception in one run aborts the loop. -/
def run_multiple : List (BrowsingTask × TransportOutcome) → Except String (List RunResult)
  | [] => Except.ok []
  | (task, o) :: rest =>
    match run_automation task.website task.instructions o with
    | Except.error m => Except.error m
    | Except.ok r =>
      match run_multiple rest with
      | Except.error m => Except.error m
      | Except.ok rs => Except.ok (r :: rs)

/-
  services/session_store.py: the Session aggregate and the SessionStore.
-/

/-- schemas.TopFinding. -/
structure TopFinding where
  title : String
  summary : String
  why_it_matters : String
  source_link : String

/-- schemas.BriefOutput. -/
structure BriefOutput where
  top_3_things : List TopFinding
  one_deeper_insight : String
  one_opportunity : String
  sources_used : List String

/-- session_store.Session; a chat turn dict `{"role": r, "content": c}` is
the pair `(r, c)`. -/
structure Session where
  session_id : String
  user_id : String
  topics : List String
  goal : String
  brief : BriefOutput
  browsing_results : List Json
  chat_history : List (String × String) := []

/-- session_store.SessionStore: the private `_sessions` dict, modelled as
an insertion-ordered association list with unique keys. -/
structure SessionStore where
  sessions : List (String × Session)

/-- SessionStore.get. -/
def SessionStore.get (st : SessionStore) (session_id : String) : Option Session :=
  (st.sessions.find? (fun p => p.1 == session_id)).map (fun p => p.2)

/-- SessionStore.add_chat_message: append one turn in place if the session
exists, otherwise report failure without side effects. -/
def SessionStore.add_chat_message (st : SessionStore)
    (session_id role content : String) : SessionStore × Bool :=
  match st.get session_id with
  | some _ =>
    (⟨st.sessions.map (fun p =>
        if p.1 == session_id then
          (p.1, { p.2 with chat_history := p.2.chat_history ++ [(role, content)] })
        else p)⟩, true)
  | none => (st, false)

/-- SessionStore.create.  `uuid.uuid4()` is nondeterministic, so the fresh
identifier is passed in explicitly. -/
def SessionStore.create (st : SessionStore) (fresh : String) (user_id : String)
    (topics : List String) (goal : String) (brief : BriefOutput)
    (browsing_results : List Json) : SessionStore × String :=
  (⟨st.sessions ++ [(fresh,
    { session_id := fresh, user_id := user_id, topics := topics, goal := goal,
      brief := brief, browsing_results := browsing_results })]⟩, fresh)

/-- SessionStore.delete. -/
def SessionStore.delete (st : SessionStore) (session_id : String) :
    SessionStore × Bool :=
  match st.get session_id with
  | some _ => (⟨st.sessions.filter (fun p => p.1 != session_id)⟩, true)
  | none => (st, false)

/-- Sequential calls of add_chat_message with the same session id,
returning the final store and the list of returned flags. -/
def addChatSeq (st : SessionStore) (session_id : String) :
    List (String × String) → SessionStore × List Bool
  | [] => (st, [])
  | (role, content) :: rest =>
    let p := st.add_chat_message session_id role content
    let q := addChatSeq p.1 session_id rest
    (q.1, p.2 :: q.2)

/-
  Helper predicates and sample events used by the statements below.
-/

/-- The `type` value the fold dispatches on (`event.get("type", "")`). -/
def typeOf (kvs : JsonKVs) : Json := dgetD kvs "type" (Json.str "")

/-- The event is dispatched to the COMPLETE branch. -/
def isCompleteEv (kvs : JsonKVs) : Bool := jEqStr (typeOf kvs) "COMPLETE"

/-- The embedded status of the event passes the success test of the
COMPLETE branch (`status == "COMPLETED"`). -/
def completeSuccess (kvs : JsonKVs) : Bool :=
  match dgetD kvs "status" (Json.str "") with
  | Json.str s => s == "COMPLETED"
  | _ => false

/-- The event is informational only (PROGRESS or HEARTBEAT branch). -/
def isInformational (kvs : JsonKVs) : Bool :=
  jEqStr (typeOf kvs) "PROGRESS" || jEqStr (typeOf kvs) "HEARTBEAT"

/-- A minimal STARTED event. -/
def startedEv : JsonKVs := JsonKVs.cons "type" (Json.str "STARTED") JsonKVs.nil

/-- A minimal HEARTBEAT event. -/
def hbEv : JsonKVs := JsonKVs.cons "type" (Json.str "HEARTBEAT") JsonKVs.nil

/-- A minimal PROGRESS event. -/
def progressEv : JsonKVs := JsonKVs.cons "type" (Json.str "PROGRESS") JsonKVs.nil

/-- A COMPLETE event with the given embedded status and resultJson. -/
def mkCompleteEv (s : String) (payload : Json) : JsonKVs :=
  JsonKVs.cons "type" (Json.str "COMPLETE")
    (JsonKVs.cons "status" (Json.str s)
      (JsonKVs.cons "resultJson" payload JsonKVs.nil))

/-- Extract the result of a run that did not raise. -/
def okOr (x : Except String RunResult) : RunResult :=
  match x with
  | Except.ok r => r
  | Except.error _ => initResult ""

/-- Did the computation return normally (no uncaught exception)? -/
def isOkE (x : Except String RunResult) : Bool :=
  match x with
  | Except.ok _ => true
  | Except.error _ => false

/-- Extract the result list of a run_multiple call that did not raise. -/
def okListOr (x : Except String (List RunResult)) : List RunResult :=
  match x with
  | Except.ok rs => rs
  | Except.error _ => []

/-- Two concrete tasks with their transport outcomes: the first meets an
authorization rejection, the second a clean empty 200 stream. -/
def wtw : List (BrowsingTask × TransportOutcome) :=
  [(⟨"https://a.test", "find a"⟩, TransportOutcome.response 401 "" [] none),
   (⟨"https://b.test", "find b"⟩, TransportOutcome.response 200 "" [] none)]

/-- A COMPLETE event whose embedded status fails the success test. -/
def badEv (kvs : JsonKVs) : Bool := isCompleteEv kvs && !(completeSuccess kvs)

/-- A COMPLETE event whose embedded status passes the success test. -/
def goodEv (kvs : JsonKVs) : Bool := isCompleteEv kvs && completeSuccess kvs

/-- A run state already holding the terminal status `completed`. -/
def wTerm : RunResult := { initResult "https://a.test" with status := "completed" }

/-- Concrete brief used by the session-store witnesses. -/
def wBrief : BriefOutput :=
  { top_3_things := [], one_deeper_insight := "", one_opportunity := "",
    sources_used := [] }

/-- Concrete session used by the session-store witnesses. -/
def wSession : Session :=
  { session_id := "s1", user_id := "u1", topics := ["ai"], goal := "explore",
    brief := wBrief, browsing_results := [], chat_history := [] }

/-- Concrete store holding exactly `wSession` under id `s1`. -/
def wStore : SessionStore := ⟨[("s1", wSession)]⟩

/-
  Characterisation of one fold step, by branch.
-/

lemma jEqStr_ne {j : Json} {a b : String} (h : jEqStr j a = true) (hne : a ≠ b) :
    jEqStr j b = false := by
  cases j <;> simp [jEqStr] at h ⊢
  rename_i s
  intro hs
  exact hne (hs ▸ h.symm)

lemma applyEvent_started (r : RunResult) (kvs : JsonKVs)
    (hs : jEqStr (typeOf kvs) "STARTED" = true) :
    applyEvent r kvs =
      Except.ok { r with events := r.events ++ [(typeOf kvs, dget kvs "timestamp")],
                         run_id := dget kvs "runId", status := "running" } := by
  simp only [typeOf] at hs
  simp [applyEvent, typeOf, hs]

lemma applyEvent_other (r : RunResult) (kvs : JsonKVs)
    (hs : jEqStr (typeOf kvs) "STARTED" = false)
    (hc : jEqStr (typeOf kvs) "COMPLETE" = false) :
    applyEvent r kvs =
      Except.ok { r with events := r.events ++ [(typeOf kvs, dget kvs "timestamp")] } := by
  simp only [typeOf] at hs hc
  by_cases hp : jEqStr (dgetD kvs "type" (Json.str "")) "PROGRESS" = true
  · simp [applyEvent, typeOf, hs, hp]
  · by_cases hh : jEqStr (dgetD kvs "type" (Json.str "")) "HEARTBEAT" = true
    · simp [applyEvent, typeOf, hs, hc, hp, hh]
    · simp [applyEvent, typeOf, hs, hc, hp, hh]

lemma applyEvent_complete_success (r : RunResult) (kvs : JsonKVs) (s : String)
    (hc : jEqStr (typeOf kvs) "COMPLETE" = true)
    (hst : dgetD kvs "status" (Json.str "") = Json.str s)
    (hok : s = "COMPLETED") :
    applyEvent r kvs =
      Except.ok { r with events := r.events ++ [(typeOf kvs, dget kvs "timestamp")],
                         status := pyLower s,
                         content := renderResult (dgetD kvs "resultJson" (Json.obj JsonKVs.nil)) } := by
  have h1 : jEqStr (typeOf kvs) "STARTED" = false := jEqStr_ne hc (by decide)
  have h2 : jEqStr (typeOf kvs) "PROGRESS" = false := jEqStr_ne hc (by decide)
  simp only [typeOf] at hc h1 h2
  simp [applyEvent, typeOf, h1, h2, hc, hst, hok]

lemma applyEvent_complete_fail (r : RunResult) (kvs : JsonKVs) (s : String)
    (hc : jEqStr (typeOf kvs) "COMPLETE" = true)
    (hst : dgetD kvs "status" (Json.str "") = Json.str s)
    (hne : s ≠ "COMPLETED") :
    applyEvent r kvs =
      Except.ok { r with events := r.events ++ [(typeOf kvs, dget kvs "timestamp")],
                         status := pyLower s,
                         error := some ("Automation " ++ s) } := by
  have h1 : jEqStr (typeOf kvs) "STARTED" = false := jEqStr_ne hc (by decide)
  have h2 : jEqStr (typeOf kvs) "PROGRESS" = false := jEqStr_ne hc (by decide)
  simp only [typeOf] at hc h1 h2
  simp [applyEvent, typeOf, h1, h2, hc, hst, hne]

lemma applyEvent_complete_raise (r : RunResult) (kvs : JsonKVs)
    (hc : jEqStr (typeOf kvs) "COMPLETE" = true)
    (hst : ∀ s, dgetD kvs "status" (Json.str "") ≠ Json.str s) :
    applyEvent r kvs = Except.error "AttributeError" := by
  have h1 : jEqStr (typeOf kvs) "STARTED" = false := jEqStr_ne hc (by decide)
  have h2 : jEqStr (typeOf kvs) "PROGRESS" = false := jEqStr_ne hc (by decide)
  simp only [typeOf] at hc h1 h2
  cases hd : dgetD kvs "status" (Json.str "")
  case str s => exact absurd hd (hst s)
  all_goals simp [applyEvent, typeOf, h1, h2, hc, hd]

lemma applyEvent_website (r : RunResult) (kvs : JsonKVs) (r1 : RunResult)
    (h : applyEvent r kvs = Except.ok r1) : r1.website = r.website := by
  by_cases hs : jEqStr (typeOf kvs) "STARTED" = true
  · rw [applyEvent_started r kvs hs] at h
    cases h
    rfl
  · by_cases hc : jEqStr (typeOf kvs) "COMPLETE" = true
    · cases hd : dgetD kvs "status" (Json.str "") with
      | str s =>
        by_cases hq : s = "COMPLETED"
        · rw [applyEvent_complete_success r kvs s hc hd hq] at h
          cases h
          rfl
        · rw [applyEvent_complete_fail r kvs s hc hd hq] at h
          cases h
          rfl
      | null => rw [applyEvent_complete_raise r kvs hc (by simp [hd])] at h; cases h
      | bool b => rw [applyEvent_complete_raise r kvs hc (by simp [hd])] at h; cases h
      | num n => rw [applyEvent_complete_raise r kvs hc (by simp [hd])] at h; cases h
      | arr xs => rw [applyEvent_complete_raise r kvs hc (by simp [hd])] at h; cases h
      | obj kv => rw [applyEvent_complete_raise r kvs hc (by simp [hd])] at h; cases h
    · rw [applyEvent_other r kvs (by simpa using hs) (by simpa using hc)] at h
      cases h
      rfl

/-
  Fold-level auxiliary lemmas.
-/

lemma foldEvents_population (evs : List JsonKVs) :
    ∀ r0 r, foldEvents r0 evs = Except.ok r →
      ((r.error ≠ none) ↔ (r0.error ≠ none ∨ ∃ e ∈ evs, badEv e = true)) ∧
      ((r.content ≠ "") → (r0.content ≠ "" ∨ ∃ e ∈ evs, goodEv e = true)) ∧
      ((∀ e ∈ evs, isCompleteEv e = false) →
        r.content = r0.content ∧ r.error = r0.error) := by
  induction evs with
  | nil =>
    intro r0 r h
    simp only [foldEvents] at h
    cases h
    simp
  | cons e rest ih =>
    intro r0 r h
    simp only [foldEvents] at h
    by_cases hc : isCompleteEv e = true
    · have hc1 : jEqStr (typeOf e) "COMPLETE" = true := hc
      cases hd : dgetD e "status" (Json.str "") with
      | str s =>
        by_cases hq : s = "COMPLETED"
        · have hgood : goodEv e = true := by
            simp [goodEv, hc, completeSuccess, hd, hq]
          have hbad : badEv e = false := by
            simp [badEv, hc, completeSuccess, hd, hq]
          rw [applyEvent_complete_success r0 e s hc1 hd hq] at h
          obtain ⟨ih1, ih2, ih3⟩ := ih _ r h
          refine ⟨?_, ?_, ?_⟩
          · rw [ih1]
            simp [List.exists_mem_cons_iff, hbad]
          · intro hcon
            rcases ih2 hcon with h1 | h2
            · exact Or.inr ⟨e, List.mem_cons_self e rest, hgood⟩
            · rcases h2 with ⟨x, hx, hgx⟩
              exact Or.inr ⟨x, List.mem_cons_of_mem e hx, hgx⟩
          · intro hall
            exact absurd (hall e (List.mem_cons_self e rest)) (by simp [hc])
        · have hbad : badEv e = true := by
            simp [badEv, hc, completeSuccess, hd, hq]
          rw [applyEvent_complete_fail r0 e s hc1 hd hq] at h
          obtain ⟨ih1, ih2, ih3⟩ := ih _ r h
          refine ⟨?_, ?_, ?_⟩
          · rw [ih1]
            simp [List.exists_mem_cons_iff, hbad]
          · intro hcon
            rcases ih2 hcon with h1 | h2
            · exact Or.inl h1
            · rcases h2 with ⟨x, hx, hgx⟩
              exact Or.inr ⟨x, List.mem_cons_of_mem e hx, hgx⟩
          · intro hall
            exact absurd (hall e (List.mem_cons_self e rest)) (by simp [hc])
      | null =>
        rw [applyEvent_complete_raise r0 e hc1 (by simp [hd])] at h
        cases h
      | bool b =>
        rw [applyEvent_complete_raise r0 e hc1 (by simp [hd])] at h
        cases h
      | num n =>
        rw [applyEvent_complete_raise r0 e hc1 (by simp [hd])] at h
        cases h
      | arr xs =>
        rw [applyEvent_complete_raise r0 e hc1 (by simp [hd])] at h
        cases h
      | obj kv =>
        rw [applyEvent_complete_raise r0 e hc1 (by simp [hd])] at h
        cases h
    · have hbad : badEv e = false := by simp [badEv, hc]
      have hgood : goodEv e = false := by simp [goodEv, hc]
      have hcb : jEqStr (typeOf e) "COMPLETE" = false := by
        simpa [isCompleteEv] using hc
      by_cases hs : jEqStr (typeOf e) "STARTED" = true
      · rw [applyEvent_started r0 e hs] at h
        obtain ⟨ih1, ih2, ih3⟩ := ih _ r h
        refine ⟨?_, ?_, ?_⟩
        · rw [ih1]
          simp [List.exists_mem_cons_iff, hbad]
        · intro hcon
          rcases ih2 hcon with h1 | h2
          · exact Or.inl h1
          · rcases h2 with ⟨x, hx, hgx⟩
            exact Or.inr ⟨x, List.mem_cons_of_mem e hx, hgx⟩
        · intro hall
          obtain ⟨hco, her⟩ := ih3 (fun x hx => hall x (List.mem_cons_of_mem e hx))
          exact ⟨hco, her⟩
      · rw [applyEvent_other r0 e (by simpa using hs) hcb] at h
        obtain ⟨ih1, ih2, ih3⟩ := ih _ r h
        refine ⟨?_, ?_, ?_⟩
        · rw [ih1]
          simp [List.exists_mem_cons_iff, hbad]
        · intro hcon
          rcases ih2 hcon with h1 | h2
          · exact Or.inl h1
          · rcases h2 with ⟨x, hx, hgx⟩
            exact Or.inr ⟨x, List.mem_cons_of_mem e hx, hgx⟩
        · intro hall
          obtain ⟨hco, her⟩ := ih3 (fun x hx => hall x (List.mem_cons_of_mem e hx))
          exact ⟨hco, her⟩

lemma isInformational_not_started {kvs : JsonKVs}
    (h : isInformational kvs = true) : jEqStr (typeOf kvs) "STARTED" = false := by
  rcases Bool.or_eq_true_iff.1 h with hp | hh
  · exact jEqStr_ne hp (by decide)
  · exact jEqStr_ne hh (by decide)

lemma isInformational_not_complete {kvs : JsonKVs}
    (h : isInformational kvs = true) : jEqStr (typeOf kvs) "COMPLETE" = false := by
  rcases Bool.or_eq_true_iff.1 h with hp | hh
  · exact jEqStr_ne hp (by decide)
  · exact jEqStr_ne hh (by decide)

lemma foldEvents_informational_then_complete (pre : List JsonKVs) :
    ∀ r0 payload r1, (∀ e ∈ pre, isInformational e = true) →
      foldEvents r0 (pre ++ [mkCompleteEv "COMPLETED" payload]) = Except.ok r1 →
      r1.content = renderResult payload := by
  induction pre with
  | nil =>
    intro r0 payload r1 _ h
    simp only [List.nil_append, foldEvents] at h
    rw [applyEvent_complete_success r0 (mkCompleteEv "COMPLETED" payload)
      "COMPLETED" rfl rfl rfl] at h
    simp only [foldEvents] at h
    cases h
    rfl
  | cons e rest ih =>
    intro r0 payload r1 hall h
    have he : isInformational e = true := hall e (List.mem_cons_self e rest)
    simp only [List.cons_append, foldEvents] at h
    rw [applyEvent_other r0 e (isInformational_not_started he)
      (isInformational_not_complete he)] at h
    exact ih _ payload r1 (fun x hx => hall x (List.mem_cons_of_mem e hx)) h

lemma processLines_website (lines : List String) :
    ∀ r r1, processLines r lines = Except.ok r1 → r1.website = r.website := by
  induction lines with
  | nil =>
    intro r r1 h
    simp only [processLines] at h
    cases h
    rfl
  | cons l ls ih =>
    intro r r1 h
    simp only [processLines] at h
    cases hl : processLine r l with
    | error m => rw [hl] at h; cases h
    | ok r2 =>
      rw [hl] at h
      have h2 : r2.website = r.website := by
        unfold processLine at hl
        by_cases hb : l = ""
        · rw [if_pos hb] at hl
          cases hl
          rfl
        · rw [if_neg hb] at hl
          by_cases hdm : strStartsWith l "data:" = true
          · rw [if_pos hdm] at hl
            by_cases hde : pyStrip (l.drop 5) = ""
            · rw [if_pos hde] at hl
              cases hl
              rfl
            · rw [if_neg hde] at hl
              cases hj : jsonDecode (pyStrip (l.drop 5)) with
              | none => rw [hj] at hl; cases hl; rfl
              | some v =>
                rw [hj] at hl
                cases v with
                | obj kvs => exact applyEvent_website r kvs r2 hl
                | null => cases hl
                | bool b => cases hl
                | num n => cases hl
                | str s => cases hl
                | arr xs => cases hl
          · rw [if_neg hdm] at hl
            cases hl
            rfl
      rw [ih r2 r1 h, h2]

lemma run_automation_website (url goal : String) (t : TransportOutcome)
    (r : RunResult) (h : run_automation url goal t = Except.ok r) :
    r.website = url := by
  unfold run_automation at h
  cases t with
  | noResponse f =>
    cases h
    cases f <;> rfl
  | response code body lines ending =>
    by_cases h401 : code = 401
    · simp [h401] at h
      rw [← h]
      rfl
    · by_cases h200 : code = 200
      · simp [h401, h200] at h
        cases hp : processLines (initResult url) lines with
        | error m => rw [hp] at h; cases h
        | ok r1 =>
          rw [hp] at h
          have hw : r1.website = url := processLines_website lines (initResult url) r1 hp
          cases ending with
          | none => cases h; exact hw
          | some f => cases h; cases f <;> exact hw
      · simp [h401, h200] at h
        rw [← h]
        rfl

lemma find?_update (l : List (String × Session)) (sid : String)
    (f : Session → Session) :
    (l.map (fun p => if p.1 == sid then (p.1, f p.2) else p)).find?
        (fun p => p.1 == sid) =
      (l.find? (fun p => p.1 == sid)).map (fun p => (p.1, f p.2)) := by
  induction l with
  | nil => rfl
  | cons p rest ih =>
    by_cases hp : (p.1 == sid) = true
    · simp [List.find?, hp]
    · simp only [List.map_cons]
      rw [if_neg (by simp [hp])]
      rw [List.find?_cons_of_neg _ (by simp [hp]),
          List.find?_cons_of_neg _ (by simp [hp])]
      exact ih

lemma add_chat_found (st : SessionStore) (sid role content : String) (s : Session)
    (h : st.get sid = some s) :
    st.add_chat_message sid role content =
      (⟨st.sessions.map (fun p =>
          if p.1 == sid then
            (p.1, { p.2 with chat_history := p.2.chat_history ++ [(role, content)] })
          else p)⟩, true) ∧
    (st.add_chat_message sid role content).1.get sid =
      some { s with chat_history := s.chat_history ++ [(role, content)] } := by
  constructor
  · unfold SessionStore.add_chat_message
    rw [h]
  · unfold SessionStore.add_chat_message
    rw [h]
    simp only [SessionStore.get] at h ⊢
    rw [find?_update st.sessions sid
      (fun s0 => { s0 with chat_history := s0.chat_history ++ [(role, content)] })]
    rcases Option.map_eq_some'.1 h with ⟨p, hp, hps⟩
    rw [hp]
    simp only [Option.map_some']
    rw [hps]

/-
  Claim theorems.
-/

/-- C1 (amended): once set, a terminal status is stable under Progress,
Heartbeat and unrecognized events, but the fold does not enforce
monotonicity against later lifecycle events: a Started event sets the
status to running from ANY state (not only pending), and a later Complete
event overwrites the status with its own lowercased embedded status. -/
theorem status_overwrite_semantics (r : RunResult) (kvs : JsonKVs) :
    (jEqStr (typeOf kvs) "STARTED" = false → jEqStr (typeOf kvs) "COMPLETE" = false →
      ∀ r1, applyEvent r kvs = Except.ok r1 → r1.status = r.status) ∧
    (jEqStr (typeOf kvs) "STARTED" = true →
      ∀ r1, applyEvent r kvs = Except.ok r1 → r1.status = "running") ∧
    (∀ s, jEqStr (typeOf kvs) "COMPLETE" = true →
      dgetD kvs "status" (Json.str "") = Json.str s →
      ∀ r1, applyEvent r kvs = Except.ok r1 → r1.status = pyLower s) := by
  refine ⟨?_, ?_, ?_⟩
  · intro hs hc r1 h
    rw [applyEvent_other r kvs hs hc] at h
    cases h
    rfl
  · intro hs r1 h
    rw [applyEvent_started r kvs hs] at h
    cases h
    rfl
  · intro s hc hst r1 h
    by_cases hq : s = "COMPLETED"
    · rw [applyEvent_complete_success r kvs s hc hst hq] at h
      cases h
      rfl
    · rw [applyEvent_complete_fail r kvs s hc hst hq] at h
      cases h
      rfl

/-- C1 counterexample: after a successful Complete set the terminal status
`completed`, a subsequent Started event changes it to `running`, although
the run was not pending — refuting the claim that a terminal status can
only be changed by the pending-to-running transition. -/
theorem status_terminal_not_monotonic_cex :
    (okOr (foldEvents (initResult "https://a.test")
      [mkCompleteEv "COMPLETED" (Json.obj JsonKVs.nil)])).status = "completed" ∧
    (okOr (foldEvents (initResult "https://a.test")
      [mkCompleteEv "COMPLETED" (Json.obj JsonKVs.nil), startedEv])).status =
      "running" := by
  exact ⟨rfl, rfl⟩

/-- Witness for C1: a heartbeat leaves the terminal status `completed`
unchanged; a Started event flips it to `running`; a failed Complete event
overwrites it with the lowercased embedded status. -/
theorem status_overwrite_semantics_witness :
    (okOr (applyEvent wTerm hbEv)).status = "completed" ∧
    (okOr (applyEvent wTerm startedEv)).status = "running" ∧
    (okOr (applyEvent wTerm (mkCompleteEv "FAILED" Json.null))).status = "failed" := by
  refine ⟨?_, ?_, ?_⟩
  · exact (status_overwrite_semantics wTerm hbEv).1 (by decide) (by decide) _ rfl
  · exact (status_overwrite_semantics wTerm startedEv).2.1 (by decide) _ rfl
  · exact (status_overwrite_semantics wTerm
      (mkCompleteEv "FAILED" Json.null)).2.2 "FAILED" (by decide) rfl _ rfl

/-- C2 (amended): at the end of an event-stream fold, `error` is non-null
iff a Complete event with a non-success status was folded, and a non-empty
`content` requires a Complete event with a success status; when the run
contains no Complete event at all, both stay absent even if other events
(Started, Progress, Heartbeat, unknown) were produced and recorded. -/
theorem error_content_population (url : String) (evs : List JsonKVs)
    (r : RunResult) (h : foldEvents (initResult url) evs = Except.ok r) :
    ((r.error ≠ none) ↔ ∃ e ∈ evs, badEv e = true) ∧
    ((r.content ≠ "") → ∃ e ∈ evs, goodEv e = true) ∧
    ((∀ e ∈ evs, isCompleteEv e = false) → r.content = "" ∧ r.error = none) := by
  obtain ⟨h1, h2, h3⟩ := foldEvents_population evs (initResult url) r h
  refine ⟨?_, ?_, ?_⟩
  · rw [h1]
    simp [initResult]
  · intro hc
    rcases h2 hc with hbad | hgood
    · exact absurd rfl hbad
    · exact hgood
  · intro hall
    obtain ⟨hco, her⟩ := h3 hall
    exact ⟨hco ▸ rfl, her ▸ rfl⟩

/-- C2 counterexample: a run consisting of a single Heartbeat event
produces one recorded event, yet at the end of the run `content` is empty
and `error` is absent — refuting the claim that both can only be absent
when the run produced no events at all. -/
theorem error_content_population_cex :
    isOkE (foldEvents (initResult "https://a.test") [hbEv]) = true ∧
    (okOr (foldEvents (initResult "https://a.test") [hbEv])).events.length = 1 ∧
    (okOr (foldEvents (initResult "https://a.test") [hbEv])).content = "" ∧
    (okOr (foldEvents (initResult "https://a.test") [hbEv])).error = none := by
  exact ⟨rfl, rfl, rfl, rfl⟩

/-- Witness for C2: a Started event followed by a failed Complete event
yields a non-null error, and a run of informational events only yields
neither content nor error. -/
theorem error_content_population_witness :
    (okOr (foldEvents (initResult "https://a.test")
      [startedEv, mkCompleteEv "FAILED" Json.null])).error ≠ none ∧
    (okOr (foldEvents (initResult "https://a.test")
      [startedEv, progressEv, hbEv])).content = "" ∧
    (okOr (foldEvents (initResult "https://a.test")
      [startedEv, progressEv, hbEv])).error = none := by
  refine ⟨?_, ?_, ?_⟩
  · exact (error_content_population "https://a.test"
      [startedEv, mkCompleteEv "FAILED" Json.null] _ rfl).1.2
      ⟨mkCompleteEv "FAILED" Json.null, by simp, by decide⟩
  · exact ((error_content_population "https://a.test"
      [startedEv, progressEv, hbEv] _ rfl).2.2 (by decide)).1
  · exact ((error_content_population "https://a.test"
      [startedEv, progressEv, hbEv] _ rfl).2.2 (by decide)).2

/-- C3: run_multiple returns one RunResult per task, in task order, with
result i carrying tasks[i].website; a terminal-error outcome of one run
(which is still a normally returned RunResult, e.g. on a 401, a non-2xx
response, a timeout or a transport fault) never prevents the remaining
tasks from producing their results. -/
theorem run_multiple_positional (tw : List (BrowsingTask × TransportOutcome))
    (h : ∀ p ∈ tw, isOkE (run_automation p.1.website p.1.instructions p.2) = true) :
    ∃ results, run_multiple tw = Except.ok results ∧
      results.length = tw.length ∧
      ∀ i (hi : i < results.length) (hi2 : i < tw.length),
        (results.get ⟨i, hi⟩).website = (tw.get ⟨i, hi2⟩).1.website := by
  induction tw with
  | nil =>
    refine ⟨[], rfl, rfl, ?_⟩
    intro i hi hi2
    exact absurd hi (by simp)
  | cons p rest ih =>
    have hp := h p (List.mem_cons_self p rest)
    obtain ⟨r, hr⟩ : ∃ r, run_automation p.1.website p.1.instructions p.2 =
        Except.ok r := by
      cases hx : run_automation p.1.website p.1.instructions p.2 with
      | ok r => exact ⟨r, rfl⟩
      | error m => rw [hx] at hp; simp [isOkE] at hp
    obtain ⟨rs, hrs, hlen, hsite⟩ := ih (fun q hq => h q (List.mem_cons_of_mem p hq))
    refine ⟨r :: rs, ?_, ?_, ?_⟩
    · show run_multiple (p :: rest) = Except.ok (r :: rs)
      unfold run_multiple
      rw [hr, hrs]
    · simpa using hlen
    · intro i hi hi2
      cases i with
      | zero =>
        simpa using run_automation_website p.1.website p.1.instructions p.2 r hr
      | succ n =>
        have hn : n < rs.length := by simpa using hi
        have hn2 : n < rest.length := by simpa using hi2
        simpa using hsite n hn hn2

/-- Witness for C3: two tasks, the first meeting a 401 (a terminal error
result), the second a clean empty 200 stream — both produce a result, in
task order, each carrying its own task's website. -/
theorem run_multiple_positional_witness :
    (okListOr (run_multiple wtw)).length = 2 ∧
    (okListOr (run_multiple wtw)).map RunResult.website =
      ["https://a.test", "https://b.test"] ∧
    (okListOr (run_multiple wtw)).map RunResult.status = ["error", "pending"] := by
  obtain ⟨results, hres, hlen, hsite⟩ :=
    run_multiple_positional wtw (by intro p hp; fin_cases hp <;> rfl)
  have hok : okListOr (run_multiple wtw) = results := by
    rw [hres]
    rfl
  refine ⟨?_, ?_, ?_⟩
  · rw [hok, hlen]
    rfl
  · rfl
  · rfl

/-- C4: a Complete event whose embedded status denotes success sets the
status to completed, sets content from the result payload (a dict payload
is rendered as indent-2 pretty-printed JSON, any other payload via str),
and leaves error untouched; a Complete event with any other status leaves
content untouched, sets error to a message naming that status, and sets
the status to the lowercased status string. -/
theorem complete_event_effect (r : RunResult) (s : String) (payload : Json) :
    (∀ r1, applyEvent r (mkCompleteEv "COMPLETED" payload) = Except.ok r1 →
      r1.status = "completed" ∧ r1.content = renderResult payload ∧
      r1.error = r.error) ∧
    (∀ kvs, payload = Json.obj kvs → renderResult payload = jsonDumps2 payload) ∧
    ((∀ kvs, payload ≠ Json.obj kvs) → renderResult payload = pyStr payload) ∧
    (s ≠ "COMPLETED" →
      ∀ r1, applyEvent r (mkCompleteEv s payload) = Except.ok r1 →
        r1.content = r.content ∧ r1.error = some ("Automation " ++ s) ∧
        r1.status = pyLower s) := by
  refine ⟨?_, ?_, ?_, ?_⟩
  · intro r1 h
    rw [applyEvent_complete_success r (mkCompleteEv "COMPLETED" payload)
      "COMPLETED" rfl rfl rfl] at h
    cases h
    exact ⟨rfl, rfl, rfl⟩
  · intro kvs hk
    rw [hk]
    rfl
  · intro hk
    cases payload with
    | obj kvs => exact absurd rfl (hk kvs)
    | null => rfl
    | bool b => rfl
    | num n => rfl
    | str t => rfl
    | arr xs => rfl
  · intro hne r1 h
    rw [applyEvent_complete_fail r (mkCompleteEv s payload) s rfl rfl hne] at h
    cases h
    exact ⟨rfl, rfl, rfl⟩

/-- Witness for C4: a successful Complete with a dict payload yields
status completed, the pretty-printed payload as content and no error; a
CANCELLED Complete leaves content empty and sets the naming error. -/
theorem complete_event_effect_witness :
    (okOr (applyEvent (initResult "https://a.test")
      (mkCompleteEv "COMPLETED"
        (Json.obj (JsonKVs.cons "k" (Json.str "v") JsonKVs.nil))))).status =
      "completed" ∧
    (okOr (applyEvent (initResult "https://a.test")
      (mkCompleteEv "COMPLETED"
        (Json.obj (JsonKVs.cons "k" (Json.str "v") JsonKVs.nil))))).content =
      "\x7b\n  \"k\": \"v\"\n\x7d" ∧
    (okOr (applyEvent (initResult "https://a.test")
      (mkCompleteEv "COMPLETED"
        (Json.obj (JsonKVs.cons "k" (Json.str "v") JsonKVs.nil))))).error = none ∧
    (okOr (applyEvent (initResult "https://a.test")
      (mkCompleteEv "CANCELLED" Json.null))).content = "" ∧
    (okOr (applyEvent (initResult "https://a.test")
      (mkCompleteEv "CANCELLED" Json.null))).error = some "Automation CANCELLED" := by
  obtain ⟨h1, h2, h3⟩ := (complete_event_effect (initResult "https://a.test") "COMPLETED"
    (Json.obj (JsonKVs.cons "k" (Json.str "v") JsonKVs.nil))).1
    (okOr (applyEvent (initResult "https://a.test")
      (mkCompleteEv "COMPLETED"
        (Json.obj (JsonKVs.cons "k" (Json.str "v") JsonKVs.nil))))) rfl
  obtain ⟨g1, g2, g3⟩ := (complete_event_effect (initResult "https://a.test") "CANCELLED"
    Json.null).2.2.2 (by decide)
    (okOr (applyEvent (initResult "https://a.test")
      (mkCompleteEv "CANCELLED" Json.null))) rfl
  exact ⟨h1, by rw [h2]; rfl, h3, g1, g2⟩

/-- C5: run_automation enters a terminal error state immediately, without
processing any stream line (the result still has its initial empty event
list and empty content), when the response is a 401 (fixed unauthorized
message), when the response has any other non-200 status code (message
with code and body), when the 300-second timeout fires before a response,
or when a lower-level transport fault occurs (message with the fault
description). -/
theorem transport_terminal_errors (url goal body desc : String) (code : Nat)
    (lines : List String) (ending : Option Fault) :
    (run_automation url goal (TransportOutcome.response 401 body lines ending) =
      Except.ok { initResult url with status := "error",
                                      error := some "Unauthorized: Invalid or missing API key" }) ∧
    (code ≠ 401 → code ≠ 200 →
      run_automation url goal (TransportOutcome.response code body lines ending) =
        Except.ok { initResult url with status := "error",
                                        error := some ("HTTP " ++ toString code ++ ": " ++ body) }) ∧
    (run_automation url goal (TransportOutcome.noResponse Fault.timeout) =
      Except.ok { initResult url with status := "error",
                                      error := some "Request timed out after 300 seconds" }) ∧
    (run_automation url goal (TransportOutcome.noResponse (Fault.reqError desc)) =
      Except.ok { initResult url with status := "error",
                                      error := some ("Request failed: " ++ desc) }) := by
  refine ⟨?_, ?_, rfl, rfl⟩
  · rfl
  · intro h401 h200
    simp only [run_automation]
    rw [if_neg h401, if_pos h200]

/-- Witness for C5: a 404 with a body yields the terminal transport error
record with the code and body in the message, zero events processed. -/
theorem transport_terminal_errors_witness :
    run_automation "https://a.test" "find a"
      (TransportOutcome.response 404 "Not Found" ["data: ignored"] none) =
    Except.ok { initResult "https://a.test" with status := "error",
                                                 error := some "HTTP 404: Not Found" } := by
  exact (transport_terminal_errors "https://a.test" "find a" "Not Found" ""
    404 ["data: ignored"] none).2.1 (by decide) (by decide)

/-- C6 (code bug): a `data:` line whose body is valid JSON but not a
structured record — here the scalar `5` — is not skipped: the fold calls
`event.get` on the decoded non-dict value and the resulting AttributeError
escapes run_automation uncaught (only json.JSONDecodeError is handled),
contrary to the contract that such lines are silently ignored and never
alter the RunResult. -/
theorem nondict_data_line_raises :
    processLine (initResult "https://a.test") "data: 5" =
      Except.error "AttributeError" ∧
    run_automation "https://a.test" "find a"
      (TransportOutcome.response 200 "" ["data: 5"] none) =
      Except.error "AttributeError" ∧
    processLine (initResult "https://a.test") "" =
      Except.ok (initResult "https://a.test") ∧
    processLine (initResult "https://a.test") ": keep-alive" =
      Except.ok (initResult "https://a.test") ∧
    processLine (initResult "https://a.test") "data: not json" =
      Except.ok (initResult "https://a.test") := by
  exact ⟨rfl, rfl, rfl, rfl, rfl⟩

/-- C7: Progress and Heartbeat events never change status, content or
error; consequently the content produced by a successful Complete event
preceded by any sequence of Progress/Heartbeat events is exactly the
serialization of that Complete event's payload, independent of the
prefix. -/
theorem informational_events_inert (url : String) :
    (∀ (r : RunResult) (kvs : JsonKVs), isInformational kvs = true →
      ∀ r1, applyEvent r kvs = Except.ok r1 →
        r1.status = r.status ∧ r1.content = r.content ∧ r1.error = r.error) ∧
    (∀ (pre : List JsonKVs) (payload : Json) (r1 : RunResult),
      (∀ e ∈ pre, isInformational e = true) →
      foldEvents (initResult url) (pre ++ [mkCompleteEv "COMPLETED" payload]) =
        Except.ok r1 →
      r1.content = renderResult payload) := by
  constructor
  · intro r kvs hi r1 h
    rw [applyEvent_other r kvs (isInformational_not_started hi)
      (isInformational_not_complete hi)] at h
    cases h
    exact ⟨rfl, rfl, rfl⟩
  · intro pre payload r1 hall h
    exact foldEvents_informational_then_complete pre (initResult url) payload r1 hall h

/-- Witness for C7: two different informational prefixes before the same
successful Complete event yield the same content, the serialization of
the payload. -/
theorem informational_events_inert_witness :
    (okOr (foldEvents (initResult "https://a.test")
      [progressEv, hbEv, mkCompleteEv "COMPLETED" (Json.str "done")])).content =
      "done" ∧
    (okOr (foldEvents (initResult "https://a.test")
      [hbEv, hbEv, progressEv, mkCompleteEv "COMPLETED" (Json.str "done")])).content =
      "done" ∧
    (okOr (applyEvent wTerm progressEv)).status = "completed" := by
  refine ⟨?_, ?_, ?_⟩
  · exact (informational_events_inert "https://a.test").2
      [progressEv, hbEv] (Json.str "done")
      (okOr (foldEvents (initResult "https://a.test")
        [progressEv, hbEv, mkCompleteEv "COMPLETED" (Json.str "done")]))
      (by intro e he; fin_cases he <;> rfl) rfl
  · exact (informational_events_inert "https://a.test").2
      [hbEv, hbEv, progressEv] (Json.str "done")
      (okOr (foldEvents (initResult "https://a.test")
        [hbEv, hbEv, progressEv, mkCompleteEv "COMPLETED" (Json.str "done")]))
      (by intro e he; fin_cases he <;> rfl) rfl
  · exact ((informational_events_inert "https://a.test").1 wTerm progressEv rfl
      (okOr (applyEvent wTerm progressEv)) rfl).1

/-- C8: for a session id present in the store, appending K chat messages
sequentially yields K success flags and extends that session's chat
history by exactly those K turns in call order (so a fresh session ends
with exactly the K turns); for an id not present, add_chat_message reports
failure and leaves the store untouched. -/
theorem add_chat_message_spec (st : SessionStore) (sid : String)
    (msgs : List (String × String)) :
    (∀ s, st.get sid = some s →
      (addChatSeq st sid msgs).2 = List.replicate msgs.length true ∧
      (addChatSeq st sid msgs).1.get sid =
        some { s with chat_history := s.chat_history ++ msgs } ∧
      (s.chat_history = [] →
        (addChatSeq st sid msgs).1.get sid =
          some { s with chat_history := msgs })) ∧
    (∀ role content, st.get sid = none →
      st.add_chat_message sid role content = (st, false)) := by
  constructor
  · induction msgs generalizing st with
    | nil =>
      intro s hs
      refine ⟨rfl, ?_, ?_⟩
      · simpa [addChatSeq] using hs
      · intro h0
        have hse : ({ s with chat_history := ([] : List (String × String)) } :
            Session) = s := by
          rw [← h0]
        rw [hse]
        simpa [addChatSeq] using hs
    | cons m rest ih =>
      intro s hs
      obtain ⟨role, content⟩ := m
      obtain ⟨heq, hget⟩ := add_chat_found st sid role content s hs
      have hstep : st.add_chat_message sid role content =
          ((st.add_chat_message sid role content).1, true) := by
        rw [heq]
      obtain ⟨ih1, ih2, _⟩ := ih (st.add_chat_message sid role content).1
        { s with chat_history := s.chat_history ++ [(role, content)] } hget
      refine ⟨?_, ?_, ?_⟩
      · show ((addChatSeq (st.add_chat_message sid role content).1 sid rest).1,
          (st.add_chat_message sid role content).2 ::
            (addChatSeq (st.add_chat_message sid role content).1 sid rest).2).2 =
          List.replicate ((role, content) :: rest).length true
        rw [show (st.add_chat_message sid role content).2 = true from by rw [heq]]
        simp only [List.length_cons, List.replicate_succ]
        rw [ih1]
      · show (addChatSeq (st.add_chat_message sid role content).1 sid rest).1.get sid =
          some { s with chat_history := s.chat_history ++ (role, content) :: rest }
        rw [ih2]
        simp
      · intro h0
        show (addChatSeq (st.add_chat_message sid role content).1 sid rest).1.get sid =
          some { s with chat_history := (role, content) :: rest }
        rw [ih2]
        simp [h0]
  · intro role content hs
    unfold SessionStore.add_chat_message
    rw [hs]

/-- Witness for C8: two sequential appends to the stored session succeed
and leave exactly the two turns in call order; an append to an unknown id
fails and leaves the store unchanged. -/
theorem add_chat_message_spec_witness :
    (addChatSeq wStore "s1" [("user", "hi"), ("assistant", "hello")]).2 =
      [true, true] ∧
    (addChatSeq wStore "s1" [("user", "hi"), ("assistant", "hello")]).1.get "s1" =
      some { wSession with chat_history := [("user", "hi"), ("assistant", "hello")] } ∧
    wStore.add_chat_message "missing" "user" "x" = (wStore, false) := by
  obtain ⟨h1, _, h3⟩ := (add_chat_message_spec wStore "s1"
    [("user", "hi"), ("assistant", "hello")]).1 wSession rfl
  refine ⟨h1, h3 rfl, ?_⟩
  exact (add_chat_message_spec wStore "missing" []).2 "user" "x" rfl

/-- C10: the success test of the Complete branch is an exact,
case-sensitive comparison of the embedded status with the string
COMPLETED; any other spelling (for example Completed or completed) leaves
content empty and sets error to the word Automation followed by that
status string, while the RunResult status is set to the lowercased status
string in every case. -/
theorem complete_status_case_sensitive (url s : String) (payload : Json) :
    (∀ r1, foldEvents (initResult url) [mkCompleteEv s payload] = Except.ok r1 →
      r1.status = pyLower s) ∧
    (s ≠ "COMPLETED" →
      ∀ r1, foldEvents (initResult url) [mkCompleteEv s payload] = Except.ok r1 →
        r1.content = "" ∧ r1.error = some ("Automation " ++ s)) ∧
    (s = "COMPLETED" →
      ∀ r1, foldEvents (initResult url) [mkCompleteEv s payload] = Except.ok r1 →
        r1.content = renderResult payload ∧ r1.error = none) := by
  refine ⟨?_, ?_, ?_⟩
  · intro r1 h
    by_cases hq : s = "COMPLETED"
    · simp only [foldEvents,
        applyEvent_complete_success (initResult url) (mkCompleteEv s payload)
          s rfl rfl hq] at h
      cases h
      rfl
    · simp only [foldEvents,
        applyEvent_complete_fail (initResult url) (mkCompleteEv s payload)
          s rfl rfl hq] at h
      cases h
      rfl
  · intro hq r1 h
    simp only [foldEvents,
      applyEvent_complete_fail (initResult url) (mkCompleteEv s payload)
        s rfl rfl hq] at h
    cases h
    exact ⟨rfl, rfl⟩
  · intro hq r1 h
    simp only [foldEvents,
      applyEvent_complete_success (initResult url) (mkCompleteEv s payload)
        s rfl rfl hq] at h
    cases h
    exact ⟨rfl, rfl⟩

/-- Witness for C10: the spelling Completed is not accepted as success —
the run ends with status completed (lowercased), empty content and the
error naming the literal status — while the exact spelling COMPLETED is
accepted and fills content with the serialized payload. -/
theorem complete_status_case_sensitive_witness :
    (okOr (foldEvents (initResult "https://a.test")
      [mkCompleteEv "Completed" (Json.str "x")])).status = "completed" ∧
    (okOr (foldEvents (initResult "https://a.test")
      [mkCompleteEv "Completed" (Json.str "x")])).content = "" ∧
    (okOr (foldEvents (initResult "https://a.test")
      [mkCompleteEv "Completed" (Json.str "x")])).error =
      some "Automation Completed" ∧
    (okOr (foldEvents (initResult "https://a.test")
      [mkCompleteEv "COMPLETED" (Json.str "x")])).content = "x" := by
  obtain ⟨h2, h3⟩ := (complete_status_case_sensitive "https://a.test" "Completed"
    (Json.str "x")).2.1 (by decide)
    (okOr (foldEvents (initResult "https://a.test")
      [mkCompleteEv "Completed" (Json.str "x")])) rfl
  have h1 := (complete_status_case_sensitive "https://a.test" "Completed"
    (Json.str "x")).1
    (okOr (foldEvents (initResult "https://a.test")
      [mkCompleteEv "Completed" (Json.str "x")])) rfl
  obtain ⟨h4, _⟩ := (complete_status_case_sensitive "https://a.test" "COMPLETED"
    (Json.str "x")).2.2 rfl
    (okOr (foldEvents (initResult "https://a.test")
      [mkCompleteEv "COMPLETED" (Json.str "x")])) rfl
  exact ⟨h1, h2, h3, h4⟩
